import Mathlib

/-!
Shallow embedding of the `test_dir` Rust crate (src/lib.rs): a temporary-directory
fixture builder.  Filesystem paths are modelled as lists of components from the
filesystem root; the filesystem itself is a finite structure of directory paths
and file paths with byte contents.  Rust `std::io::Result`/`panic!` are modelled
with `Option`/`Except String` (an `Except.error` is a panic, its string the
diagnostic).  Randomness (`thread_rng`) is modelled as an explicit byte supply
`Nat → UInt8`; environment lookups (`std::env::temp_dir`, `current_dir`) are
explicit parameters.
-/

namespace TestDirSpec

/-- A path component (one segment between separators). -/
abbrev Seg := String

/-- An absolute path: the list of components below the filesystem root `/`. -/
abbrev AbsPath := List Seg

/-- Embedding of a parsed Rust `Path`/`PathBuf` argument: whether the textual
path was absolute, plus its components.  (`Path::new(s)` with `s` starting in a
separator is absolute.) -/
structure RPath where
  absolute : Bool
  comps : List Seg
deriving DecidableEq

/-- Embedding of Rust `PathBuf::push`: pushing an absolute path replaces the
base, pushing a relative path appends its components. -/
def pushPath (base : AbsPath) (p : RPath) : AbsPath :=
  if p.absolute then p.comps else base ++ p.comps

/-- Embedding of Rust `Path::parent` on a parsed path: `None` for the empty
path (and for the bare root), otherwise the path with its last component
removed.  Note `Path::new("a").parent() == Some(Path::new(""))`. -/
def rustParent (p : RPath) : Option RPath :=
  if p.comps = [] then none else some ⟨p.absolute, p.comps.dropLast⟩

/-- The filesystem: which absolute paths are directories, and which are files
(with their byte contents).  Modelled as finite lists; membership is what
matters. -/
structure FS where
  dirs : List AbsPath
  files : List (AbsPath × List UInt8)
deriving DecidableEq

/-- Embedding of `Path::is_dir`. -/
def FS.isDir (fs : FS) (p : AbsPath) : Bool := decide (p ∈ fs.dirs)

/-- Embedding of `Path::is_file`. -/
def FS.isFile (fs : FS) (p : AbsPath) : Bool := decide (p ∈ fs.files.map Prod.fst)

/-- Embedding of `Path::exists`: the path is a directory or a file. -/
def fsExists (fs : FS) (p : AbsPath) : Bool := fs.isDir p || fs.isFile p

/-- Content of the file at `p`, if any. -/
def fileContent (fs : FS) (p : AbsPath) : Option (List UInt8) :=
  (fs.files.find? (fun e => decide (e.1 = p))).map Prod.snd

/-- Embedding of `fs::create_dir_all`: creates every ancestor of `p` as a
directory (`mkdir -p`).  Fails iff some prefix of `p` is an existing file;
pre-existing directories are not an error. -/
def createDirAll (fs : FS) (p : AbsPath) : Option FS :=
  if p.inits.any (fun q => fs.isFile q) then none
  else some { dirs := fs.dirs ++ p.inits, files := fs.files }

/-- Embedding of `fs::File::create`: creates or truncates the file at `p`.
Fails if `p` is a directory or its parent is not an existing directory. -/
def fileCreate (fs : FS) (p : AbsPath) (content : List UInt8) : Option FS :=
  if fs.isDir p then none
  else if fs.isDir p.dropLast then
    some { dirs := fs.dirs,
           files := (p, content) :: fs.files.filter (fun e => !(decide (e.1 = p))) }
  else none

/-- Recursive deletion of the subtree rooted at `b` (the effect of a successful
`fs::remove_dir_all b`): every path having `b` as a prefix is removed. -/
def removeSubtree (fs : FS) (b : AbsPath) : FS :=
  { dirs := fs.dirs.filter (fun q => !(decide (b <+: q))),
    files := fs.files.filter (fun e => !(decide (b <+: e.1))) }

/-- Embedding of `fs::remove_file p`: deletes the single file entry at `p`. -/
def removeFileFS (fs : FS) (p : AbsPath) : FS :=
  { dirs := fs.dirs, files := fs.files.filter (fun e => !(decide (e.1 = p))) }

/-- Well-formedness of a filesystem snapshot: the root exists, directories are
closed under ancestors, and every file is a non-root path whose parent is a
directory and which is not itself a directory. -/
def FS.WF (fs : FS) : Prop :=
  [] ∈ fs.dirs ∧
  (∀ p ∈ fs.dirs, ∀ q ∈ p.inits, q ∈ fs.dirs) ∧
  (∀ e ∈ fs.files, e.1 ≠ [] ∧ e.1.dropLast ∈ fs.dirs ∧ e.1 ∉ fs.dirs)

/-- One step bound for the boundary-walk loop in `TempDir::create`:
`while let Some(ppath) = p.parent() { if ppath.exists() break; p = ppath }`.
The loop removes one component per iteration, so `p.length` fuel is exact; the
`0` case is reached only at the empty path, where Rust's `parent()` is `None`
and the loop stops as well. -/
def findDeleteAux (fs : FS) : Nat → AbsPath → AbsPath
  | 0, p => p
  | Nat.succ n, p =>
    if p = [] then p
    else if fsExists fs p.dropLast then p else findDeleteAux fs n p.dropLast

/-- The deletion boundary computed by the loop in `TempDir::create`. -/
def findDelete (fs : FS) (p : AbsPath) : AbsPath := findDeleteAux fs p.length p

/-- Embedding of the `TempDir` struct of src/lib.rs. -/
structure TempDir where
  path : AbsPath
  delete : AbsPath
deriving DecidableEq

/-- Embedding of `TempDir::create`: compute the deletion boundary, then
`fs::create_dir_all` the target; `None` is the propagated `io::Error`. -/
def TempDir.create (fs : FS) (path : AbsPath) : Option (TempDir × FS) :=
  let d := findDelete fs path
  match createDirAll fs path with
  | some fs' => some (⟨path, d⟩, fs')
  | none => none

/-- Embedding of `TempDir::temp`: root at `<system temp dir>/<random name>`. -/
def TempDir.temp (fs : FS) (tmpDir : AbsPath) (name : Seg) : Option (TempDir × FS) :=
  TempDir.create fs (tmpDir ++ [name])

/-- Embedding of `TempDir::current_rnd`: root at `<cwd>/<random name>`. -/
def TempDir.current_rnd (fs : FS) (cwd : AbsPath) (name : Seg) : Option (TempDir × FS) :=
  TempDir.create fs (cwd ++ [name])

/-- Embedding of `TempDir::current`: root at `<cwd>` pushed with `path`. -/
def TempDir.current (fs : FS) (cwd : AbsPath) (p : RPath) : Option (TempDir × FS) :=
  TempDir.create fs (pushPath cwd p)

/-- The underlying OS call `fs::remove_dir_all` made by `Drop::drop`, with an
explicit fault flag standing for the environmental failures (in-use file, …)
the structural model cannot produce.  A failed removal's partial effect is not
observable here; only whether the error escapes matters. -/
def removeDirAllR (fault : Bool) (fs : FS) (p : AbsPath) : Except String FS :=
  if fault then Except.error "os error" else Except.ok (removeSubtree fs p)

/-- Embedding of `impl Drop for TempDir`: `let _ = fs::remove_dir_all(delete)`
— the result is discarded, so the drop itself never produces an error. -/
def TempDir.dropRun (fault : Bool) (fs : FS) (td : TempDir) : Except String FS :=
  match removeDirAllR fault fs td.delete with
  | Except.ok fs' => Except.ok fs'
  | Except.error _ => Except.ok fs

/-- Embedding of the `FileType` enum of src/lib.rs. -/
inductive FileType where
  | EmptyFile
  | RandomFile (size : Nat)
  | ZeroFile (size : Nat)
  | Dir
deriving DecidableEq

/-- The bytes written by `TestDir::create_file` for a given `FileType`:
nothing for `EmptyFile`, `n` ASCII `'0'` (48) bytes for `ZeroFile n`, `n`
bytes drawn from the random supply for `RandomFile n`; the `Dir` arm of the
source `match` writes nothing. -/
def contentBytes (ft : FileType) (rng : Nat → UInt8) : List UInt8 :=
  match ft with
  | FileType.EmptyFile => []
  | FileType.ZeroFile n => List.replicate n 48
  | FileType.RandomFile n => (List.range n).map rng
  | FileType.Dir => []

/-- Embedding of the `TestDir` struct of src/lib.rs. -/
structure TestDir where
  tempdir : TempDir
  root : AbsPath
  files : List AbsPath
  dirs : List AbsPath
deriving DecidableEq

/-- Embedding of `TestDir::new`. -/
def TestDir.new (td : TempDir) : TestDir := ⟨td, td.path, [], []⟩

/-- Embedding of `TestDir::temp`: panics (here `Except.error`) when the
underlying `TempDir` construction fails. -/
def TestDir.temp (fs : FS) (tmpDir : AbsPath) (name : Seg) : Except String (TestDir × FS) :=
  match TempDir.temp fs tmpDir name with
  | some (td, fs') => Except.ok (TestDir.new td, fs')
  | none => Except.error "Cannot create temp dir in system temp"

/-- Embedding of `TestDir::current_rnd`. -/
def TestDir.current_rnd (fs : FS) (cwd : AbsPath) (name : Seg) : Except String (TestDir × FS) :=
  match TempDir.current_rnd fs cwd name with
  | some (td, fs') => Except.ok (TestDir.new td, fs')
  | none => Except.error "Cannot create temp dir in current directory"

/-- Embedding of `TestDir::current`. -/
def TestDir.current (fs : FS) (cwd : AbsPath) (p : RPath) : Except String (TestDir × FS) :=
  match TempDir.current fs cwd p with
  | some (td, fs') => Except.ok (TestDir.new td, fs')
  | none => Except.error "Cannot create dir in current directory"

/-- Embedding of `TestDir::get_files`. -/
def TestDir.get_files (t : TestDir) : List AbsPath := t.files

/-- Embedding of `TestDir::get_dirs`. -/
def TestDir.get_dirs (t : TestDir) : List AbsPath := t.dirs

/-- Embedding of `TestDir::create_dir`: `create_dir_all(root/path)`, recording
the built path in `dirs` on success. -/
def TestDir.create_dir (t : TestDir) (fs : FS) (p : List Seg) : Option (TestDir × FS) :=
  match createDirAll fs (t.root ++ p) with
  | some fs' => some ({ t with dirs := t.dirs ++ [t.root ++ p] }, fs')
  | none => none

/-- Embedding of `TestDir::create_file`: `File::create(root/path)` (a failure
panics with "Create file …"), write the content bytes, record the built path
in `files`. -/
def TestDir.create_file (t : TestDir) (fs : FS) (p : List Seg) (ft : FileType)
    (rng : Nat → UInt8) : Except String (TestDir × FS) :=
  match fileCreate fs (t.root ++ p) (contentBytes ft rng) with
  | none => Except.error "Create file"
  | some fs' => Except.ok ({ t with files := t.files ++ [t.root ++ p] }, fs')

/-- Embedding of `TestDir::remove_file`: if `root/path` exists, remove it
recursively when a directory, as a single file when a file; otherwise do
nothing.  The structural model gives the OS calls no failure case, so the
result is always `ok`. -/
def TestDir.remove_file (t : TestDir) (fs : FS) (p : List Seg) : Except String (TestDir × FS) :=
  if fsExists fs (t.root ++ p) then
    if fs.isDir (t.root ++ p) then Except.ok (t, removeSubtree fs (t.root ++ p))
    else if fs.isFile (t.root ++ p) then Except.ok (t, removeFileFS fs (t.root ++ p))
    else Except.ok (t, fs)
  else Except.ok (t, fs)

/-- Embedding of `DirBuilder::create` for `TestDir`: reject absolute paths
(panic), create a directory chain for `FileType::Dir`, otherwise create the
parent chain (when the path has a parent) and then the file; the `unwrap`
calls turn helper failures into panics. -/
def TestDir.createOp (t : TestDir) (fs : FS) (p : RPath) (ft : FileType)
    (rng : Nat → UInt8) : Except String (TestDir × FS) :=
  if p.absolute then Except.error "Only relative paths are allowed."
  else if ft = FileType.Dir then
    match t.create_dir fs p.comps with
    | some r => Except.ok r
    | none => Except.error "called unwrap on an Err value"
  else
    match rustParent p with
    | some pp =>
      match t.create_dir fs pp.comps with
      | some (t', fs') => t'.create_file fs' p.comps ft rng
      | none => Except.error "called unwrap on an Err value"
    | none => t.create_file fs p.comps ft rng

/-- Embedding of `DirBuilder::remove` for `TestDir`: reject absolute paths
(panic), then `remove_file`, panicking if it reports an error. -/
def TestDir.removeOp (t : TestDir) (fs : FS) (p : RPath) : Except String (TestDir × FS) :=
  if p.absolute then Except.error "Only relative paths are allowed."
  else
    match t.remove_file fs p.comps with
    | Except.ok r => Except.ok r
    | Except.error e => Except.error ("Cannot remove file: " ++ e)

/-- Embedding of `DirBuilder::path` for `TestDir`: `root.clone()` pushed with
the argument; a pure function of the builder, with no filesystem argument or
effect. -/
def TestDir.pathOp (t : TestDir) (p : RPath) : AbsPath := pushPath t.root p

/-- Embedding of `DirBuilder::root` for `TestDir`. -/
def TestDir.rootOp (t : TestDir) : AbsPath := t.root

instance (fs : FS) : Decidable (FS.WF fs) := by
  unfold FS.WF
  infer_instance

/-! ### Basic lemmas about the filesystem model -/

theorem fsExists_iff (fs : FS) (p : AbsPath) :
    fsExists fs p = true ↔ p ∈ fs.dirs ∨ p ∈ fs.files.map Prod.fst := by
  simp [fsExists, FS.isDir, FS.isFile]

theorem pre_dropLast_of_ne {α : Type} {q p : List α} (h : q <+: p) (hne : q ≠ p) :
    q <+: p.dropLast := by
  apply List.prefix_of_prefix_length_le h ( List.dropLast_prefix p)
  have h1 := h.length_le
  have h2 : q.length ≠ p.length := fun he => hne (h.eq_of_length he)
  simp only [List.length_dropLast]
  omega

theorem FS.WF.exists_closed {fs : FS} (h : FS.WF fs) {q r : AbsPath}
    (hq : fsExists fs q = true) (hr : r <+: q) : fsExists fs r = true := by
  rcases (fsExists_iff fs q).1 hq with hd | hf
  · exact (fsExists_iff fs r).2 (Or.inl (h.2.1 q hd r ((List.mem_inits _ _).2 hr)))
  · rcases List.mem_map.1 hf with ⟨e, he, hfst⟩
    by_cases hrq : r = q
    · subst hrq; exact hq
    · have h1 : r <+: q.dropLast := pre_dropLast_of_ne hr hrq
      have h2 : q.dropLast ∈ fs.dirs := by
        have h3 := (h.2.2 e he).2.1; rwa [hfst] at h3
      exact (fsExists_iff fs r).2 (Or.inl (h.2.1 _ h2 r ((List.mem_inits _ _).2 h1)))

theorem fsExists_root {fs : FS} (h : FS.WF fs) : fsExists fs [] = true :=
  (fsExists_iff fs []).2 (Or.inl h.1)

/-! ### Lemmas about the deletion-boundary walk -/

theorem findDeleteAux_pre (fs : FS) (n : Nat) :
    ∀ p : AbsPath, findDeleteAux fs n p <+: p := by
  induction n with
  | zero => intro p; exact List.prefix_refl p
  | succ n ih =>
    intro p
    unfold findDeleteAux
    by_cases h0 : p = []
    · rw [if_pos h0]
    · rw [if_neg h0]
      by_cases he : fsExists fs p.dropLast = true
      · rw [if_pos he]
      · rw [if_neg he]
        exact (ih p.dropLast).trans ( List.dropLast_prefix p)

theorem findDeleteAux_not_ex (fs : FS) (n : Nat) :
    ∀ p : AbsPath, fsExists fs p = false → fsExists fs (findDeleteAux fs n p) = false := by
  induction n with
  | zero => intro p h; exact h
  | succ n ih =>
    intro p h
    unfold findDeleteAux
    by_cases h0 : p = []
    · rw [if_pos h0]; exact h
    · rw [if_neg h0]
      by_cases he : fsExists fs p.dropLast = true
      · rw [if_pos he]; exact h
      · rw [if_neg he]
        exact ih p.dropLast (by simpa using he)

theorem findDeleteAux_least (fs : FS) (hwf : FS.WF fs) (n : Nat) :
    ∀ p : AbsPath, p.length ≤ n →
      ∀ q, q <+: p → fsExists fs q = false → findDeleteAux fs n p <+: q := by
  induction n with
  | zero =>
    intro p hlen q _ _
    have hp : p = [] := List.length_eq_zero.1 (Nat.le_zero.1 hlen)
    subst hp
    exact List.nil_prefix
  | succ n ih =>
    intro p hlen q hq hne
    unfold findDeleteAux
    by_cases h0 : p = []
    · rw [if_pos h0]; subst h0; exact List.nil_prefix
    · rw [if_neg h0]
      by_cases he : fsExists fs p.dropLast = true
      · rw [if_pos he]
        by_cases hqp : q = p
        · subst hqp; exact List.prefix_refl q
        · exfalso
          have h1 : q <+: p.dropLast := pre_dropLast_of_ne hq hqp
          have h2 := hwf.exists_closed he h1
          simp [hne] at h2
      · rw [if_neg he]
        have hlen' : p.dropLast.length ≤ n := by
          have h3 : p.length ≠ 0 := by simpa using h0
          simp only [List.length_dropLast]
          omega
        by_cases hqp : q = p
        · subst hqp
          exact (findDeleteAux_pre fs n q.dropLast).trans ( List.dropLast_prefix q)
        · exact ih p.dropLast hlen' q (pre_dropLast_of_ne hq hqp) hne

theorem findDelete_pre (fs : FS) (p : AbsPath) : findDelete fs p <+: p :=
  findDeleteAux_pre fs p.length p

theorem findDelete_not_ex (fs : FS) (p : AbsPath) (h : fsExists fs p = false) :
    fsExists fs (findDelete fs p) = false :=
  findDeleteAux_not_ex fs p.length p h

theorem findDelete_least (fs : FS) (hwf : FS.WF fs) (p : AbsPath) :
    ∀ q, q <+: p → fsExists fs q = false → findDelete fs p <+: q :=
  findDeleteAux_least fs hwf p.length p (Nat.le_refl _)

theorem findDelete_parent (fs : FS) (p : AbsPath) (h0 : p ≠ [])
    (he : fsExists fs p.dropLast = true) : findDelete fs p = p := by
  unfold findDelete
  obtain ⟨m, hm⟩ : ∃ m, p.length = m + 1 := by
    have h1 := List.length_pos.2 h0
    exact ⟨p.length - 1, by omega⟩
  rw [hm]
  unfold findDeleteAux
  rw [if_neg h0, if_pos he]

/-! ### Lemmas about the primitive filesystem operations -/

theorem createDirAll_some {fs fs' : FS} {p : AbsPath} (h : createDirAll fs p = some fs') :
    fs'.dirs = fs.dirs ++ p.inits ∧ fs'.files = fs.files := by
  unfold createDirAll at h
  by_cases hc : p.inits.any (fun q => fs.isFile q) = true
  · rw [if_pos hc] at h; exact absurd h (by simp)
  · rw [if_neg hc] at h
    simp only [Option.some.injEq] at h
    subst h
    exact ⟨rfl, rfl⟩

theorem fsExists_createDirAll {fs fs' : FS} {p : AbsPath} (h : createDirAll fs p = some fs')
    (q : AbsPath) : fsExists fs' q = true ↔ fsExists fs q = true ∨ q <+: p := by
  obtain ⟨hd, hf⟩ := createDirAll_some h
  simp only [fsExists_iff, hd, hf, List.mem_append, List.mem_inits]
  tauto

theorem fsExists_removeSubtree (fs : FS) (b q : AbsPath) :
    fsExists (removeSubtree fs b) q = true ↔ fsExists fs q = true ∧ ¬ b <+: q := by
  simp only [fsExists_iff, removeSubtree, List.mem_filter, List.mem_map,
    Bool.not_eq_true', decide_eq_false_iff_not]
  constructor
  · rintro (⟨hm, hb⟩ | ⟨e, ⟨he, hb⟩, hq⟩)
    · exact ⟨Or.inl hm, hb⟩
    · exact ⟨Or.inr ⟨e, he, hq⟩, hq ▸ hb⟩
  · rintro ⟨hm | ⟨e, he, hq⟩, hb⟩
    · exact Or.inl ⟨hm, hb⟩
    · exact Or.inr ⟨e, ⟨he, hq ▸ hb⟩, hq⟩

theorem dropRun_ok (fs : FS) (td : TempDir) :
    TempDir.dropRun false fs td = Except.ok (removeSubtree fs td.delete) := rfl

theorem TempDir.create_some {fs fs₁ : FS} {t : AbsPath} {td : TempDir}
    (h : TempDir.create fs t = some (td, fs₁)) :
    td = ⟨t, findDelete fs t⟩ ∧ createDirAll fs t = some fs₁ := by
  unfold TempDir.create at h
  cases hc : createDirAll fs t with
  | none => rw [hc] at h; exact absurd h (by simp)
  | some fs2 =>
    rw [hc] at h
    simp only [Option.some.injEq, Prod.mk.injEq] at h
    exact ⟨h.1.symm, congrArg some h.2⟩

/-! ### C1: deletion boundary and teardown -/

/-- **C1 (amended)**: for every fixture construction through `TempDir::create`
on a target that did **not** exist before construction, the deletion boundary
is the topmost ancestor of the target that did not exist (the target itself
when its immediate parent existed), and teardown recursively deletes exactly
the subtree at that boundary: every pre-existing path survives, the newly
created chain (boundary through root) is gone, and nothing outside the
boundary subtree is touched. -/
theorem C1_boundary_and_teardown (fs : FS) (t : AbsPath) (td : TempDir) (fs₁ : FS)
    (hwf : FS.WF fs) (hnew : fsExists fs t = false)
    (hc : TempDir.create fs t = some (td, fs₁)) :
    td.path = t ∧
    td.delete <+: t ∧
    fsExists fs td.delete = false ∧
    (∀ q, q <+: t → fsExists fs q = false → td.delete <+: q) ∧
    (fsExists fs t.dropLast = true → td.delete = t) ∧
    TempDir.dropRun false fs₁ td = Except.ok (removeSubtree fs₁ td.delete) ∧
    (∀ q, fsExists fs q = true → fsExists (removeSubtree fs₁ td.delete) q = true) ∧
    (∀ q, td.delete <+: q → fsExists (removeSubtree fs₁ td.delete) q = false) ∧
    (∀ q, fsExists fs₁ q = true → ¬ td.delete <+: q →
        fsExists (removeSubtree fs₁ td.delete) q = true) := by
  obtain ⟨htd, hca⟩ := TempDir.create_some hc
  subst htd
  refine ⟨rfl, findDelete_pre fs t, findDelete_not_ex fs t hnew,
    findDelete_least fs hwf t, ?_, rfl, ?_, ?_, ?_⟩
  · intro hp
    have h0 : t ≠ [] := by
      intro h
      subst h
      simp [fsExists_root hwf] at hnew
    exact findDelete_parent fs t h0 hp
  · intro q hq
    have hq1 : fsExists fs₁ q = true := (fsExists_createDirAll hca q).2 (Or.inl hq)
    have hnb : ¬ findDelete fs t <+: q := by
      intro hb
      have h4 := hwf.exists_closed hq hb
      simp [findDelete_not_ex fs t hnew] at h4
    exact (fsExists_removeSubtree fs₁ _ q).2 ⟨hq1, hnb⟩
  · intro q hb
    cases hx : fsExists (removeSubtree fs₁ (findDelete fs t)) q with
    | false => rfl
    | true => exact absurd hb ((fsExists_removeSubtree fs₁ _ q).1 hx).2
  · intro q hq hnb
    exact (fsExists_removeSubtree fs₁ _ q).2 ⟨hq, hnb⟩

/-- A filesystem where the whole target chain `a/b` of a current-directory
fixture (cwd `/`) already exists before construction. -/
def fsPre : FS := ⟨[[], ["a"], ["a", "b"]], []⟩

/-- `fsPre` after `TempDir::create` on the pre-existing target `a/b`
(`create_dir_all` re-lists the chain; membership is unchanged). -/
def fsPreAfter : FS := ⟨[[], ["a"], ["a", "b"], [], ["a"], ["a", "b"]], []⟩

/-- **C1 counterexample**: constructing a current-directory fixture at the
multi-segment relative path `a/b` whose full chain pre-exists makes the
boundary the pre-existing target `a/b` itself, and teardown then deletes the
pre-existing directory `a/b` — so it is not the case that every directory that
pre-existed fixture construction still exists after teardown. -/
theorem C1_counterexample :
    fsExists fsPre ["a", "b"] = true ∧
    TempDir.current fsPre [] ⟨false, ["a", "b"]⟩ =
      some (⟨["a", "b"], ["a", "b"]⟩, fsPreAfter) ∧
    TempDir.dropRun false fsPreAfter ⟨["a", "b"], ["a", "b"]⟩ =
      Except.ok (removeSubtree fsPreAfter ["a", "b"]) ∧
    fsExists (removeSubtree fsPreAfter ["a", "b"]) ["a", "b"] = false ∧
    fsExists (removeSubtree fsPreAfter ["a", "b"]) ["a"] = true :=
  ⟨by decide, rfl, rfl, by decide, by decide⟩

/-- A filesystem where only `/` and `a` exist. -/
def fsW : FS := ⟨[[], ["a"]], []⟩

/-- The `TempDir` built by `TempDir::create` on target `a/b/c` over `fsW`:
the boundary is `a/b`, the topmost non-existent ancestor. -/
def tdW : TempDir := ⟨["a", "b", "c"], ["a", "b"]⟩

/-- `fsW` after creating the chain `a/b/c`. -/
def fsW1 : FS := ⟨[[], ["a"], [], ["a"], ["a", "b"], ["a", "b", "c"]], []⟩

/-- Witness for C1: a concrete run (cwd chain `a` pre-exists, `a/b`, `a/b/c`
do not) discharging every hypothesis of the amended theorem. -/
theorem C1_witness :
    tdW.path = ["a", "b", "c"] ∧
    tdW.delete <+: ["a", "b", "c"] ∧
    fsExists fsW tdW.delete = false ∧
    (∀ q, q <+: ["a", "b", "c"] → fsExists fsW q = false → tdW.delete <+: q) ∧
    (fsExists fsW (["a", "b", "c"] : AbsPath).dropLast = true →
        tdW.delete = ["a", "b", "c"]) ∧
    TempDir.dropRun false fsW1 tdW = Except.ok (removeSubtree fsW1 tdW.delete) ∧
    (∀ q, fsExists fsW q = true → fsExists (removeSubtree fsW1 tdW.delete) q = true) ∧
    (∀ q, tdW.delete <+: q → fsExists (removeSubtree fsW1 tdW.delete) q = false) ∧
    (∀ q, fsExists fsW1 q = true → ¬ tdW.delete <+: q →
        fsExists (removeSubtree fsW1 tdW.delete) q = true) :=
  C1_boundary_and_teardown fsW ["a", "b", "c"] tdW fsW1 (by decide) (by decide) rfl

/-! ### Shared concrete fixtures for witnesses -/

/-- A live fixture rooted at `/r` (its own boundary). -/
def tdirW : TestDir := ⟨⟨["r"], ["r"]⟩, ["r"], [], []⟩

/-- A filesystem holding just `/` and the fixture root `/r`. -/
def fsRoot : FS := ⟨[[], ["r"]], []⟩

/-- `fsRoot` plus a file `r/f` (content `ab`) and a directory `r/d` with a
file `r/d/g` inside. -/
def fsRm : FS :=
  ⟨[[], ["r"], ["r", "d"]], [(["r", "f"], [97, 98]), (["r", "d", "g"], [])]⟩

/-! ### C5: absolute paths are rejected -/

/-- **C5**: for every fixture state and filesystem, passing an absolute path to
`create` or `remove` panics immediately with the diagnostic, yielding no new
fixture or filesystem state (the operations return only the error). -/
theorem C5_absolute_rejected (t : TestDir) (fs : FS) (p : RPath) (ft : FileType)
    (rng : Nat → UInt8) (habs : p.absolute = true) :
    TestDir.createOp t fs p ft rng = Except.error "Only relative paths are allowed." ∧
    TestDir.removeOp t fs p = Except.error "Only relative paths are allowed." := by
  constructor
  · unfold TestDir.createOp
    rw [if_pos habs]
  · unfold TestDir.removeOp
    rw [if_pos habs]

/-- Witness for C5 at a concrete absolute path on a concrete fixture. -/
theorem C5_witness :
    TestDir.createOp tdirW fsRoot ⟨true, ["x"]⟩ FileType.EmptyFile (fun _ => 0) =
      Except.error "Only relative paths are allowed." ∧
    TestDir.removeOp tdirW fsRoot ⟨true, ["x"]⟩ =
      Except.error "Only relative paths are allowed." :=
  C5_absolute_rejected tdirW fsRoot ⟨true, ["x"]⟩ FileType.EmptyFile (fun _ => 0) rfl

/-! ### C6: `path` is pure -/

/-- **C6**: `path(p)` equals the fixture root joined with the relative path
`p`.  The embedding of `DirBuilder::path` is a function of the builder alone —
it takes no filesystem argument and returns only a path, so it can neither
create nor delete anything nor change the fixture. -/
theorem C6_path_pure (t : TestDir) (p : RPath) (hrel : p.absolute = false) :
    TestDir.pathOp t p = t.root ++ p.comps := by
  unfold TestDir.pathOp pushPath
  simp [hrel]

/-- Witness for C6 on a concrete fixture and relative path. -/
theorem C6_witness : TestDir.pathOp tdirW ⟨false, ["x", "y"]⟩ = tdirW.root ++ ["x", "y"] :=
  C6_path_pure tdirW ⟨false, ["x", "y"]⟩ rfl

/-! ### C7: teardown is best-effort -/

/-- **C7**: whatever the underlying `remove_dir_all` call does — succeed or
fail (the `fault` flag) — the drop handler returns `ok`: the `let _ =` in
`impl Drop for TempDir` discards any error, so teardown never panics and never
propagates an error to the caller. -/
theorem C7_teardown_suppressed (fault : Bool) (fs : FS) (td : TempDir) :
    ∃ fs', TempDir.dropRun fault fs td = Except.ok fs' := by
  cases fault
  · exact ⟨removeSubtree fs td.delete, rfl⟩
  · exact ⟨fs, rfl⟩

/-! ### C9: `remove` keeps the creation records -/

theorem remove_file_ok (t : TestDir) (fs : FS) (p : List Seg) :
    ∃ fs₂, TestDir.remove_file t fs p = Except.ok (t, fs₂) := by
  unfold TestDir.remove_file
  split
  · split
    · exact ⟨_, rfl⟩
    · split
      · exact ⟨_, rfl⟩
      · exact ⟨_, rfl⟩
  · exact ⟨_, rfl⟩

/-- **C9**: a successful `remove(p)` never modifies the recorded creation
history: `get_files` and `get_dirs` afterwards are exactly what they were
before the call (so the records may list paths that no longer exist). -/
theorem C9_remove_keeps_records (t t' : TestDir) (fs fs' : FS) (p : RPath)
    (h : TestDir.removeOp t fs p = Except.ok (t', fs')) :
    t'.get_files = t.get_files ∧ t'.get_dirs = t.get_dirs := by
  unfold TestDir.removeOp at h
  by_cases habs : p.absolute = true
  · rw [if_pos habs] at h
    exact absurd h (by simp)
  · rw [if_neg habs] at h
    obtain ⟨fs₂, he⟩ := remove_file_ok t fs p.comps
    rw [he] at h
    simp only [Except.ok.injEq, Prod.mk.injEq] at h
    rw [← h.1]
    exact ⟨rfl, rfl⟩

/-- Witness for C9: removing the existing file `r/f` leaves the (empty)
records untouched. -/
theorem C9_witness :
    (tdirW.get_files = tdirW.get_files ∧ tdirW.get_dirs = tdirW.get_dirs) :=
  C9_remove_keeps_records tdirW tdirW fsRm (removeFileFS fsRm ["r", "f"])
    ⟨false, ["f"]⟩ rfl

/-! ### Shape lemmas for `DirBuilder::create` -/

theorem createDirAll_cond_false {fs fs' : FS} {p : AbsPath}
    (h : createDirAll fs p = some fs') :
    p.inits.any (fun q => fs.isFile q) = false := by
  unfold createDirAll at h
  cases hc : p.inits.any (fun q => fs.isFile q) with
  | false => rfl
  | true =>
    rw [hc] at h
    exact absurd h (by simp)

theorem createDirAll_of_no_file {fs : FS} {p : AbsPath}
    (hnf : p.inits.any (fun q => fs.isFile q) = false) :
    createDirAll fs p = some ⟨fs.dirs ++ p.inits, fs.files⟩ := by
  unfold createDirAll
  simp [hnf]

theorem no_file_on_dir_chain {fs : FS} (hwf : FS.WF fs) {p : AbsPath} (hp : p ∈ fs.dirs) :
    p.inits.any (fun q => fs.isFile q) = false := by
  cases hc : p.inits.any (fun q => fs.isFile q) with
  | false => rfl
  | true =>
    exfalso
    simp only [List.any_eq_true] at hc
    obtain ⟨q, hqm, hqf⟩ := hc
    have hqd : q ∈ fs.dirs := hwf.2.1 p hp q hqm
    unfold FS.isFile at hqf
    obtain ⟨e, he, hq⟩ := List.mem_map.1 (of_decide_eq_true hqf)
    exact (hwf.2.2 e he).2.2 (hq ▸ hqd)

theorem fileCreate_content {fs fs' : FS} {p : AbsPath} {c : List UInt8}
    (h : fileCreate fs p c = some fs') :
    fileContent fs' p = some c ∧ fs'.dirs = fs.dirs := by
  unfold fileCreate at h
  by_cases h1 : fs.isDir p = true
  · rw [if_pos h1] at h
    exact absurd h (by simp)
  · rw [if_neg h1] at h
    by_cases h2 : fs.isDir p.dropLast = true
    · rw [if_pos h2] at h
      simp only [Option.some.injEq] at h
      subst h
      refine ⟨?_, rfl⟩
      unfold fileContent
      rw [List.find?_cons_of_pos _ (by simp)]
      rfl
    · rw [if_neg h2] at h
      exact absurd h (by simp)

theorem createOp_file_shape {t t' : TestDir} {fs fs' : FS} {p : RPath} {ft : FileType}
    {rng : Nat → UInt8} (hft : ft ≠ FileType.Dir)
    (h : TestDir.createOp t fs p ft rng = Except.ok (t', fs')) :
    ∃ fsMid dirsMid,
      fileCreate fsMid (t.root ++ p.comps) (contentBytes ft rng) = some fs' ∧
      t' = { t with dirs := dirsMid, files := t.files ++ [t.root ++ p.comps] } ∧
      (p.comps = [] → fsMid = fs ∧ dirsMid = t.dirs) ∧
      (p.comps ≠ [] →
        createDirAll fs (t.root ++ p.comps.dropLast) = some fsMid ∧
        dirsMid = t.dirs ++ [t.root ++ p.comps.dropLast]) := by
  unfold TestDir.createOp at h
  by_cases habs : p.absolute = true
  · rw [if_pos habs] at h
    exact absurd h (by simp)
  · rw [if_neg habs] at h
    rw [if_neg hft] at h
    unfold rustParent at h
    by_cases hne : p.comps = []
    · rw [if_pos hne] at h
      unfold TestDir.create_file at h
      cases hfc : fileCreate fs (t.root ++ p.comps) (contentBytes ft rng) with
      | none =>
        rw [hfc] at h
        exact absurd h (by simp)
      | some fs2 =>
        rw [hfc] at h
        simp only [Except.ok.injEq, Prod.mk.injEq] at h
        refine ⟨fs, t.dirs, ?_, ?_, fun _ => ⟨rfl, rfl⟩, fun hn => absurd hne hn⟩
        · rw [hfc, h.2]
        · rw [← h.1]
    · rw [if_neg hne] at h
      dsimp only at h
      cases hcd : t.create_dir fs p.comps.dropLast with
      | none =>
        rw [hcd] at h
        exact absurd h (by simp)
      | some r =>
        obtain ⟨t1, fs1⟩ := r
        rw [hcd] at h
        unfold TestDir.create_dir at hcd
        cases hca : createDirAll fs (t.root ++ p.comps.dropLast) with
        | none =>
          rw [hca] at hcd
          exact absurd hcd (by simp)
        | some fs1' =>
          rw [hca] at hcd
          simp only [Option.some.injEq, Prod.mk.injEq] at hcd
          obtain ⟨ht1, hfs1⟩ := hcd
          subst hfs1
          rw [← ht1] at h
          dsimp only at h
          unfold TestDir.create_file at h
          dsimp only at h
          cases hfc : fileCreate fs1' (t.root ++ p.comps) (contentBytes ft rng) with
          | none =>
            rw [hfc] at h
            exact absurd h (by simp)
          | some fs2 =>
            rw [hfc] at h
            simp only [Except.ok.injEq, Prod.mk.injEq] at h
            refine ⟨fs1', t.dirs ++ [t.root ++ p.comps.dropLast], ?_, ?_,
              fun hn => absurd hn hne, fun _ => ⟨rfl, rfl⟩⟩
            · rw [hfc, h.2]
            · rw [← h.1]

/-! ### C2: file contents -/

/-- **C2**: a successful `create` with a file content spec produces at
`root/p` the file whose bytes the content generator yields — no bytes for
`EmptyFile`, exactly `n` ASCII `'0'` (48) bytes for `ZeroFile n`, exactly `n`
supplied bytes for `RandomFile n` — and appends the built path to
`created_files`. -/
theorem C2_file_contents (t t' : TestDir) (fs fs' : FS) (p : RPath) (ft : FileType)
    (rng : Nat → UInt8) (hft : ft ≠ FileType.Dir)
    (h : TestDir.createOp t fs p ft rng = Except.ok (t', fs')) :
    fileContent fs' (t.root ++ p.comps) = some (contentBytes ft rng) ∧
    (ft = FileType.EmptyFile → fileContent fs' (t.root ++ p.comps) = some []) ∧
    (∀ n, ft = FileType.ZeroFile n → ∃ bs, fileContent fs' (t.root ++ p.comps) = some bs ∧
        bs.length = n ∧ ∀ b ∈ bs, b = 48) ∧
    (∀ n, ft = FileType.RandomFile n → ∃ bs, fileContent fs' (t.root ++ p.comps) = some bs ∧
        bs.length = n) ∧
    t'.get_files = t.get_files ++ [t.root ++ p.comps] := by
  obtain ⟨fsMid, dirsMid, hfc, ht', _, _⟩ := createOp_file_shape hft h
  have hcon := (fileCreate_content hfc).1
  refine ⟨hcon, ?_, ?_, ?_, ?_⟩
  · intro he
    subst he
    exact hcon
  · intro n hz
    subst hz
    exact ⟨List.replicate n 48, hcon, List.length_replicate n 48,
      fun b hb => List.eq_of_mem_replicate hb⟩
  · intro n hr
    subst hr
    exact ⟨(List.range n).map rng, hcon, by simp⟩
  · rw [ht']
    rfl

/-- The byte supply used in concrete runs. -/
def rng0 : Nat → UInt8 := fun _ => 0

/-- `fsRoot` after `create("f", ZeroFile(2))` on `tdirW`. -/
def fsC2 : FS := ⟨[[], ["r"], [], ["r"]], [(["r", "f"], [48, 48])]⟩

/-- `tdirW` after `create("f", ZeroFile(2))`. -/
def tdC2 : TestDir := ⟨⟨["r"], ["r"]⟩, ["r"], [["r", "f"]], [["r"]]⟩

/-- Witness for C2: the concrete run `create("f", ZeroFile(2))` on a fixture
rooted at `/r`. -/
theorem C2_witness :
    fileContent fsC2 (tdirW.root ++ ["f"]) = some (contentBytes (FileType.ZeroFile 2) rng0) ∧
    (FileType.ZeroFile 2 = FileType.EmptyFile →
        fileContent fsC2 (tdirW.root ++ ["f"]) = some []) ∧
    (∀ n, FileType.ZeroFile 2 = FileType.ZeroFile n →
        ∃ bs, fileContent fsC2 (tdirW.root ++ ["f"]) = some bs ∧
          bs.length = n ∧ ∀ b ∈ bs, b = 48) ∧
    (∀ n, FileType.ZeroFile 2 = FileType.RandomFile n →
        ∃ bs, fileContent fsC2 (tdirW.root ++ ["f"]) = some bs ∧ bs.length = n) ∧
    tdC2.get_files = tdirW.get_files ++ [tdirW.root ++ ["f"]] :=
  C2_file_contents tdirW tdC2 fsRoot fsC2 ⟨false, ["f"]⟩ (FileType.ZeroFile 2) rng0
    (by decide) rfl

/-! ### C3: mkdir -p semantics -/

theorem createOp_dir_shape {t t' : TestDir} {fs fs' : FS} {p : RPath} {rng : Nat → UInt8}
    (h : TestDir.createOp t fs p FileType.Dir rng = Except.ok (t', fs')) :
    p.absolute = false ∧
    createDirAll fs (t.root ++ p.comps) = some fs' ∧
    t' = { t with dirs := t.dirs ++ [t.root ++ p.comps] } := by
  unfold TestDir.createOp at h
  by_cases habs : p.absolute = true
  · rw [if_pos habs] at h
    exact absurd h (by simp)
  · rw [if_neg habs] at h
    rw [if_pos rfl] at h
    unfold TestDir.create_dir at h
    cases hca : createDirAll fs (t.root ++ p.comps) with
    | none =>
      rw [hca] at h
      exact absurd h (by simp)
    | some fs2 =>
      rw [hca] at h
      simp only [Except.ok.injEq, Prod.mk.injEq] at h
      exact ⟨by simpa using habs, congrArg some h.2, h.1.symm⟩

/-- **C3**: `create(p, Dir)` creates the full directory chain at `root/p`
(mkdir -p: every ancestor of the target becomes a directory) and records the
path in `created_dirs`; a pre-existing directory is not an error and repeating
the same create succeeds again; and a file-kind `create` on a path with
components transparently creates the intermediate directories. -/
theorem C3_mkdir_semantics (t : TestDir) (fs : FS) (p : RPath) (rng : Nat → UInt8) :
    (∀ t' fs', TestDir.createOp t fs p FileType.Dir rng = Except.ok (t', fs') →
        (∀ q, q <+: t.root ++ p.comps → q ∈ fs'.dirs) ∧
        t'.get_dirs = t.get_dirs ++ [t.root ++ p.comps] ∧
        ∃ t'' fs'', TestDir.createOp t' fs' p FileType.Dir rng = Except.ok (t'', fs'')) ∧
    (p.absolute = false → FS.WF fs → t.root ++ p.comps ∈ fs.dirs →
        ∃ t' fs', TestDir.createOp t fs p FileType.Dir rng = Except.ok (t', fs')) ∧
    (∀ ft t' fs', ft ≠ FileType.Dir → p.comps ≠ [] →
        TestDir.createOp t fs p ft rng = Except.ok (t', fs') →
        ∀ q, q <+: t.root ++ p.comps.dropLast → q ∈ fs'.dirs) := by
  refine ⟨?_, ?_, ?_⟩
  · intro t' fs' h
    obtain ⟨habs, hca, ht'⟩ := createOp_dir_shape h
    obtain ⟨hd', hf'⟩ := createDirAll_some hca
    refine ⟨?_, ?_, ?_⟩
    · intro q hq
      rw [hd']
      exact List.mem_append.2 (Or.inr ((List.mem_inits _ _).2 hq))
    · rw [ht']
      rfl
    · have hroot : t'.root = t.root := by rw [ht']
      have hcond : (t'.root ++ p.comps).inits.any (fun q => fs'.isFile q) = false := by
        have hfun : (fun q => fs'.isFile q) = fun q => fs.isFile q := by
          funext q
          unfold FS.isFile
          rw [hf']
        rw [hroot, hfun]
        exact createDirAll_cond_false hca
      refine ⟨{ t' with dirs := t'.dirs ++ [t'.root ++ p.comps] },
        ⟨fs'.dirs ++ (t'.root ++ p.comps).inits, fs'.files⟩, ?_⟩
      unfold TestDir.createOp
      rw [if_neg (by simp [habs]), if_pos rfl]
      unfold TestDir.create_dir
      rw [createDirAll_of_no_file hcond]
  · intro habs hwf hmem
    refine ⟨{ t with dirs := t.dirs ++ [t.root ++ p.comps] },
      ⟨fs.dirs ++ (t.root ++ p.comps).inits, fs.files⟩, ?_⟩
    unfold TestDir.createOp
    rw [if_neg (by simp [habs]), if_pos rfl]
    unfold TestDir.create_dir
    rw [createDirAll_of_no_file (no_file_on_dir_chain hwf hmem)]
  · intro ft t' fs' hft hne h q hq
    obtain ⟨fsMid, dirsMid, hfc, _, _, hpar⟩ := createOp_file_shape hft h
    obtain ⟨hca, _⟩ := hpar hne
    rw [(fileCreate_content hfc).2, (createDirAll_some hca).1]
    exact List.mem_append.2 (Or.inr ((List.mem_inits _ _).2 hq))

/-- `fsRoot` after `create("x/y", Dir)` on `tdirW`. -/
def fsC3 : FS := ⟨[[], ["r"], [], ["r"], ["r", "x"], ["r", "x", "y"]], []⟩

/-- `tdirW` after `create("x/y", Dir)`. -/
def tdC3 : TestDir := ⟨⟨["r"], ["r"]⟩, ["r"], [], [["r", "x", "y"]]⟩

/-- `fsRoot` after `create("f2", EmptyFile)` on `tdirW`. -/
def fsC3f : FS := ⟨[[], ["r"], [], ["r"]], [(["r", "f2"], [])]⟩

/-- `tdirW` after `create("f2", EmptyFile)`. -/
def tdC3f : TestDir := ⟨⟨["r"], ["r"]⟩, ["r"], [["r", "f2"]], [["r"]]⟩

/-- Witness for C3: a concrete `create("x/y", Dir)` (chain + record + repeat),
a `create` of the pre-existing root path, and the intermediate directory of a
concrete `create("f2", EmptyFile)`. -/
theorem C3_witness :
    ((∀ q, q <+: tdirW.root ++ ["x", "y"] → q ∈ fsC3.dirs) ∧
      tdC3.get_dirs = tdirW.get_dirs ++ [tdirW.root ++ ["x", "y"]] ∧
      (∃ t'' fs'', TestDir.createOp tdC3 fsC3 ⟨false, ["x", "y"]⟩ FileType.Dir rng0 =
          Except.ok (t'', fs''))) ∧
    (∃ t' fs', TestDir.createOp tdirW fsRoot ⟨false, []⟩ FileType.Dir rng0 =
        Except.ok (t', fs')) ∧
    (∀ q, q <+: tdirW.root ++ (["f2"] : List Seg).dropLast → q ∈ fsC3f.dirs) :=
  ⟨(C3_mkdir_semantics tdirW fsRoot ⟨false, ["x", "y"]⟩ rng0).1 tdC3 fsC3 rfl,
   (C3_mkdir_semantics tdirW fsRoot ⟨false, []⟩ rng0).2.1 rfl (by decide) (by decide),
   (C3_mkdir_semantics tdirW fsRoot ⟨false, ["f2"]⟩ rng0).2.2 FileType.EmptyFile tdC3f fsC3f
     (by decide) (by decide) rfl⟩

/-! ### C4: remove semantics -/

theorem find?_filter_ne (l : List (AbsPath × List UInt8)) (b q : AbsPath) (hq : q ≠ b) :
    (l.filter (fun e => !(decide (e.1 = b)))).find? (fun e => decide (e.1 = q)) =
      l.find? (fun e => decide (e.1 = q)) := by
  induction l with
  | nil => rfl
  | cons e l ih =>
    rw [List.filter_cons]
    by_cases hb : e.1 = b
    · rw [if_neg (by simp [hb]), ih,
        List.find?_cons_of_neg _ (by simp [hb]; exact fun h => hq h.symm)]
    · rw [if_pos (by simp [hb])]
      by_cases hq2 : e.1 = q
      · rw [List.find?_cons_of_pos _ (by simp [hq2]),
          List.find?_cons_of_pos _ (by simp [hq2])]
      · rw [List.find?_cons_of_neg _ (by simp [hq2]),
          List.find?_cons_of_neg _ (by simp [hq2]), ih]

theorem fileContent_removeFileFS {fs : FS} {b q : AbsPath} (hq : q ≠ b) :
    fileContent (removeFileFS fs b) q = fileContent fs q := by
  unfold fileContent removeFileFS
  rw [find?_filter_ne fs.files b q hq]

theorem fsExists_removeFileFS_self {fs : FS} {b : AbsPath} (hd : fs.isDir b = false) :
    fsExists (removeFileFS fs b) b = false := by
  have h1 : (removeFileFS fs b).isDir b = false := hd
  have h2 : (removeFileFS fs b).isFile b = false := by
    unfold FS.isFile removeFileFS
    simp
  unfold fsExists
  rw [h1, h2]
  rfl

/-- **C4**: for every relative path, `remove` succeeds: it is the identity
when `root/p` does not exist; it deletes the whole subtree when `root/p` is a
directory; and when `root/p` is a (non-directory) file it deletes exactly that
single file — the path no longer exists, directories are untouched, and every
other file keeps its content.  In this structural model the underlying OS
deletions cannot fail, matching the spec's "only some other filesystem error
is fatal". -/
theorem C4_remove_semantics (t : TestDir) (fs : FS) (p : RPath) (hrel : p.absolute = false) :
    (∃ t' fs', TestDir.removeOp t fs p = Except.ok (t', fs')) ∧
    (fsExists fs (t.root ++ p.comps) = false →
        TestDir.removeOp t fs p = Except.ok (t, fs)) ∧
    (fs.isDir (t.root ++ p.comps) = true →
        TestDir.removeOp t fs p = Except.ok (t, removeSubtree fs (t.root ++ p.comps)) ∧
        (∀ q, (t.root ++ p.comps) <+: q →
            fsExists (removeSubtree fs (t.root ++ p.comps)) q = false)) ∧
    (fs.isFile (t.root ++ p.comps) = true → fs.isDir (t.root ++ p.comps) = false →
        TestDir.removeOp t fs p = Except.ok (t, removeFileFS fs (t.root ++ p.comps)) ∧
        fsExists (removeFileFS fs (t.root ++ p.comps)) (t.root ++ p.comps) = false ∧
        (removeFileFS fs (t.root ++ p.comps)).dirs = fs.dirs ∧
        (∀ q, q ≠ t.root ++ p.comps →
            fileContent (removeFileFS fs (t.root ++ p.comps)) q = fileContent fs q)) := by
  have hrel' : ¬ p.absolute = true := by simp [hrel]
  refine ⟨?_, ?_, ?_, ?_⟩
  · obtain ⟨fs₂, he⟩ := remove_file_ok t fs p.comps
    exact ⟨t, fs₂, by unfold TestDir.removeOp; rw [if_neg hrel', he]⟩
  · intro hne
    unfold TestDir.removeOp TestDir.remove_file
    rw [if_neg hrel', if_neg (by simp [hne])]
  · intro hd
    constructor
    · unfold TestDir.removeOp TestDir.remove_file
      rw [if_neg hrel', if_pos (by simp [fsExists, hd]), if_pos hd]
    · intro q hq
      cases hx : fsExists (removeSubtree fs (t.root ++ p.comps)) q with
      | false => rfl
      | true => exact absurd hq ((fsExists_removeSubtree fs _ q).1 hx).2
  · intro hf hd
    refine ⟨?_, fsExists_removeFileFS_self hd, rfl, fun q hq => fileContent_removeFileFS hq⟩
    unfold TestDir.removeOp TestDir.remove_file
    rw [if_neg hrel', if_pos (by simp [fsExists, hf]), if_neg (by simp [hd]), if_pos hf]

/-- Witness for C4: over `fsRm`, removing the non-existent `x` is a no-op,
removing the directory `d` deletes its subtree (including the file `d/g`),
and removing the file `f` deletes just that file. -/
theorem C4_witness :
    TestDir.removeOp tdirW fsRm ⟨false, ["x"]⟩ = Except.ok (tdirW, fsRm) ∧
    (TestDir.removeOp tdirW fsRm ⟨false, ["d"]⟩ =
        Except.ok (tdirW, removeSubtree fsRm (tdirW.root ++ ["d"])) ∧
      (∀ q, (tdirW.root ++ ["d"]) <+: q →
          fsExists (removeSubtree fsRm (tdirW.root ++ ["d"])) q = false)) ∧
    (TestDir.removeOp tdirW fsRm ⟨false, ["f"]⟩ =
        Except.ok (tdirW, removeFileFS fsRm (tdirW.root ++ ["f"])) ∧
      fsExists (removeFileFS fsRm (tdirW.root ++ ["f"])) (tdirW.root ++ ["f"]) = false ∧
      (removeFileFS fsRm (tdirW.root ++ ["f"])).dirs = fsRm.dirs ∧
      (∀ q, q ≠ tdirW.root ++ ["f"] →
          fileContent (removeFileFS fsRm (tdirW.root ++ ["f"])) q = fileContent fsRm q)) :=
  ⟨(C4_remove_semantics tdirW fsRm ⟨false, ["x"]⟩ rfl).2.1 (by decide),
   (C4_remove_semantics tdirW fsRm ⟨false, ["d"]⟩ rfl).2.2.1 (by decide),
   (C4_remove_semantics tdirW fsRm ⟨false, ["f"]⟩ rfl).2.2.2 (by decide) (by decide)⟩

/-! ### C8: construction failures are fatal -/

/-- **C8**: each construction entry point (`temp`, `current_rnd`, `current`)
is fatal on failure: when the underlying root-tree creation fails, the entry
point does not return a recoverable value but the panic diagnostic naming the
failed operation. -/
theorem C8_construction_fatal (fs : FS) (tmpDir cwd : AbsPath) (name : Seg) (p : RPath) :
    (TempDir.temp fs tmpDir name = none →
        TestDir.temp fs tmpDir name =
          Except.error "Cannot create temp dir in system temp") ∧
    (TempDir.current_rnd fs cwd name = none →
        TestDir.current_rnd fs cwd name =
          Except.error "Cannot create temp dir in current directory") ∧
    (TempDir.current fs cwd p = none →
        TestDir.current fs cwd p =
          Except.error "Cannot create dir in current directory") := by
  refine ⟨?_, ?_, ?_⟩
  · intro h
    unfold TestDir.temp
    rw [h]
  · intro h
    unfold TestDir.current_rnd
    rw [h]
  · intro h
    unfold TestDir.current
    rw [h]

/-- A filesystem where a file named `t` blocks the creation of a directory
`t` under the root. -/
def fsBlock : FS := ⟨[[]], [(["t"], [])]⟩

/-- Witness for C8: with a file in the way of the root directory tree, all
three entry points fail with their diagnostics. -/
theorem C8_witness :
    TestDir.temp fsBlock [] "t" = Except.error "Cannot create temp dir in system temp" ∧
    TestDir.current_rnd fsBlock [] "t" =
      Except.error "Cannot create temp dir in current directory" ∧
    TestDir.current fsBlock [] ⟨false, ["t"]⟩ =
      Except.error "Cannot create dir in current directory" :=
  ⟨(C8_construction_fatal fsBlock [] [] "t" ⟨false, ["t"]⟩).1 rfl,
   (C8_construction_fatal fsBlock [] [] "t" ⟨false, ["t"]⟩).2.1 rfl,
   (C8_construction_fatal fsBlock [] [] "t" ⟨false, ["t"]⟩).2.2 rfl⟩

/-! ### C10: file creation records the parent directory -/

/-- **C10**: every successful `create` with a file content spec on a relative
path with at least one component also records the resolved parent directory
in `created_dirs` (via the unconditional `create_dir` on `path.parent()`);
for a single-component path such as `"empty"` Rust's parent is the empty
path, so the fixture root itself is recorded — `get_dirs` can therefore list
entries (including the root) never requested via `create(_, Dir)`. -/
theorem C10_parent_recorded (t t' : TestDir) (fs fs' : FS) (p : RPath) (ft : FileType)
    (rng : Nat → UInt8) (hft : ft ≠ FileType.Dir) (hne : p.comps ≠ [])
    (h : TestDir.createOp t fs p ft rng = Except.ok (t', fs')) :
    t'.get_dirs = t.get_dirs ++ [t.root ++ p.comps.dropLast] ∧
    (∀ c, p.comps = [c] → t'.get_dirs = t.get_dirs ++ [t.root]) := by
  obtain ⟨fsMid, dirsMid, _, ht', _, hpar⟩ := createOp_file_shape hft h
  obtain ⟨_, hdm⟩ := hpar hne
  constructor
  · rw [ht', hdm]
    rfl
  · intro c hc
    rw [ht', hdm, hc]
    simp [TestDir.get_dirs]

/-- Witness for C10: the single-component run `create("f", ZeroFile(2))`
records the fixture root itself in `created_dirs`. -/
theorem C10_witness :
    tdC2.get_dirs = tdirW.get_dirs ++ [tdirW.root ++ (["f"] : List Seg).dropLast] ∧
    (∀ c, (["f"] : List Seg) = [c] → tdC2.get_dirs = tdirW.get_dirs ++ [tdirW.root]) :=
  C10_parent_recorded tdirW tdC2 fsRoot fsC2 ⟨false, ["f"]⟩ (FileType.ZeroFile 2) rng0
    (by decide) (by decide) rfl

end TestDirSpec
